import Mathlib

/-!
Shallow embedding of `injectproxy/routes.go` of opsgy/prom-label-proxy:
the tenant-extraction pipeline (`ServeHTTP`), the method dispatcher
(`enforceMethods`), the matcher constructor (`createLabelMatcher` /
`mustLabelValue`) and the endpoint handlers (`query`, `series`,
`federate`).

Go's `url.Values` (a map from key to a slice of strings) is modelled as
an association list `Values`; its `Get`/`Del`/`Set`/`Add` operations are
translated below.  The PromQL parser and the AST enforcer are external
collaborators of this file (the parser lives in the Prometheus library,
the enforcer in a separate source file); handlers take them as function
parameters returning `Except`, which models a Go `(result, error)` pair.
A Go `panic` is modelled by the `PanicOr` result type.
-/

set_option autoImplicit false

/-- Model of Go `url.Values`: a map from parameter name to the list of
its values, represented as an association list in which each key occurs
at most once (the operations below preserve this, as a Go map does). -/
abbrev Values := List (String × List String)

/-- Model of Go `url.Values.Get` (also of `http.Header.Get` for the
header names used here): the first value associated with the key, or ""
when the key is absent or has no values. -/
def Values.get (q : Values) (k : String) : String :=
  match q.find? (fun p => p.1 = k) with
  | none => ""
  | some p => p.2.headD ""

/-- All values associated with a key (`v[key]` in Go). -/
def Values.getAll (q : Values) (k : String) : List String :=
  ((q.filter (fun p => p.1 = k)).map Prod.snd).flatten

/-- The slice stored for the key, `nil` (`none`) when the key is absent:
model of the Go map access `v[key]` together with its `!= nil` test. -/
def Values.findKey (q : Values) (k : String) : Option (List String) :=
  (q.find? (fun p => p.1 = k)).map Prod.snd

/-- Model of Go `url.Values.Del`: remove the key entirely. -/
def Values.del (q : Values) (k : String) : Values :=
  q.filter (fun p => ¬ p.1 = k)

/-- Model of Go `url.Values.Set`: replace the key's values with the
single given value. -/
def Values.set (q : Values) (k v : String) : Values :=
  Values.del q k ++ [(k, [v])]

/-- Model of Go `url.Values.Add`: append the value to the key's slice. -/
def Values.add (q : Values) (k v : String) : Values :=
  if (q.find? (fun p => p.1 = k)).isSome then
    q.map (fun p => if p.1 = k then (p.1, p.2 ++ [v]) else p)
  else
    q ++ [(k, [v])]

/-- Model of Go's `%q` escaping of one character (only the characters
that need escaping among those occurring in label names here). -/
def goQuoteChar (c : Char) : List Char :=
  if c = '"' then ['\\', '"']
  else if c = '\\' then ['\\', '\\']
  else [c]

/-- Model of Go's `fmt` verb `%q` on a string: double quotes around the
escaped characters. -/
def goQuote (s : String) : String :=
  "\"" ++ String.mk (s.data.map goQuoteChar).flatten ++ "\""

/-- Model of Go `strings.Split` on a single-character separator, at the
level of character lists.  `strings.Split` never returns an empty slice
and preserves empty segments. -/
def splitOnChar (c : Char) : List Char → List (List Char)
  | [] => [[]]
  | x :: xs =>
    if x = c then
      [] :: splitOnChar c xs
    else
      match splitOnChar c xs with
      | [] => [[x]]
      | h :: t => (x :: h) :: t

/-- Join with a separator character: the inverse direction of
`splitOnChar`, used to state that splitting loses nothing. -/
def joinChar (c : Char) : List (List Char) → List Char
  | [] => []
  | [l] => l
  | l :: ls => l ++ c :: joinChar c ls

/-- Model of Go `strings.Split(s, sep)` for a one-character `sep`. -/
def goSplitChar (c : Char) (s : String) : List String :=
  (splitOnChar c s.data).map String.mk

/-- Translation of `labels.MatchType` of the Prometheus labels library. -/
inductive MatchType where
  | matchEqual
  | matchNotEqual
  | matchRegexp
  | matchNotRegexp
  deriving DecidableEq, Repr

/-- The `String()` form of a `labels.MatchType`. -/
def MatchType.str : MatchType → String
  | .matchEqual => "="
  | .matchNotEqual => "!="
  | .matchRegexp => "=~"
  | .matchNotRegexp => "!~"

/-- Translation of `labels.Matcher` of the Prometheus labels library: label name, match
kind and value. -/
structure Matcher where
  name : String
  mtype : MatchType
  value : String
  deriving DecidableEq, Repr

/-- Model of `labels.Matcher.String()`:
`fmt.Sprintf("%s%s%q", m.Name, m.Type, m.Value)`. -/
def matcherString (m : Matcher) : String :=
  m.name ++ m.mtype.str ++ goQuote m.value

/-- Result of a Go function that may `panic`. -/
inductive PanicOr (α : Type) where
  | panicked (msg : String)
  | ok (a : α)
  deriving DecidableEq, Repr

/-- True exactly on the `panic` outcome. -/
def PanicOr.isPanic {α : Type} : PanicOr α → Bool
  | .panicked _ => true
  | .ok _ => false

/-- The configuration fields of the `routes` struct that the request
pipeline reads: the tenant label name and where to read it from
("header" or anything else for a query parameter). -/
structure Routes where
  label : String
  labelLocation : String
  deriving DecidableEq, Repr

/-- The parts of Go's `*http.Request` that `routes.go` reads: method,
path, headers, the parsed URL query (`req.URL.Query()`), and the parsed
form (`req.Form`, which for the requests in question merges the URL
query and any body parameters). -/
structure Request where
  method : String
  path : String
  header : Values
  query : Values
  form : Values
  deriving DecidableEq, Repr

/-- Translation of `mustLabelValue`: reads the tenant value list from the request
context (`none` models a context with no `[]string` stored under the
key) and panics when it is absent, `nil` or empty. -/
def mustLabelValue (ctxVal : Option (List String)) : PanicOr (List String) :=
  match ctxVal with
  | none => .panicked "cant find the label value in the context"
  | some lvalues =>
    if lvalues.length = 0 then
      .panicked "empty label value in the context"
    else
      .ok lvalues

/-- Translation of `createLabelMatcher`: one tenant value gives an equality matcher,
several give an anchored-alternation regexp matcher; the final branch
(redundant after `mustLabelValue`) panics. -/
def createLabelMatcher (ctxVal : Option (List String)) (label : String) :
    PanicOr Matcher :=
  match mustLabelValue ctxVal with
  | .panicked msg => .panicked msg
  | .ok lvalues =>
    if lvalues.length = 1 then
      .ok { name := label, mtype := .matchEqual, value := lvalues.headD "" }
    else if 1 < lvalues.length then
      .ok { name := label, mtype := .matchRegexp,
            value := "^(?:" ++ String.intercalate "|" lvalues ++ ")$" }
    else
      .panicked "label values has invalid size"

/-- The raw tenant value `lvalue` read in `ServeHTTP`: from the header
when `labelLocation == "header"`, otherwise from the URL query. -/
def readLabelValue (r : Routes) (req : Request) : String :=
  if r.labelLocation = "header" then
    Values.get req.header r.label
  else
    Values.get req.query r.label

/-- Outcome of `routes.ServeHTTP` before the mux dispatch: either an
HTTP error response written directly (`http.Error`), or the rewritten
request handed to the mux together with the tenant value list attached
to its context. -/
inductive ServeResult where
  | response (status : Nat) (body : String)
  | dispatched (req : Request) (lvalues : List String)
  deriving DecidableEq, Repr

/-- Translation of `routes.ServeHTTP`: read the tenant value, reject with 400 when it
is empty, otherwise split it on commas, attach the list to the context,
delete the tenant query parameter, and dispatch to the mux. -/
def serveHTTP (r : Routes) (req : Request) : ServeResult :=
  let lvalue := readLabelValue r req
  if lvalue = "" then
    .response 400
      ("Bad request. The " ++ goQuote r.label ++
        " query parameter must be provided.")
  else
    .dispatched { req with query := Values.del req.query r.label }
      (goSplitChar ',' lvalue)

/-- Outcome of `enforceMethods`: invoke the wrapped handler, or write an
HTTP response (`http.NotFound` writes status 404). -/
inductive MethodOutcome where
  | invokeHandler
  | response (status : Nat)
  deriving DecidableEq, Repr

/-- Translation of `enforceMethods`: scan the allowed methods in order; on a match the
handler runs, otherwise `http.NotFound` answers 404. -/
def enforceMethods (methods : List String) (req : Request) : MethodOutcome :=
  match methods with
  | [] => .response 404
  | m :: rest =>
    if m = req.method then .invokeHandler else enforceMethods rest req

/-- The mux registrations of `NewRoutes`: path, allowed methods. -/
def routesTable : List (String × List String) :=
  [("/federate", ["GET"]),
   ("/api/v1/query", ["GET", "POST"]),
   ("/api/v1/query_range", ["GET", "POST"]),
   ("/api/v1/series", ["GET", "POST"]),
   ("/api/v1/labels", ["GET"]),
   ("/api/v1/label/__name__/values", ["GET"]),
   ("/api/v1/alerts", ["GET"]),
   ("/api/v1/rules", ["GET"]),
   ("/api/v2/silences", ["GET", "POST"]),
   ("/api/v2/silences/", ["GET", "POST"]),
   ("/api/v2/silence/", ["DELETE"])]

/-- Outcome of an endpoint handler: the rewritten request forwarded to
the upstream proxy, an explicit client-error response, or a bare
`return` that writes nothing (the Go server then sends an implicit
200 with an empty body). -/
inductive HandlerOutcome where
  | forwarded (req : Request)
  | clientError (status : Nat) (msg : String)
  | silentReturn
  deriving DecidableEq, Repr

/-- True exactly when the handler wrote a client-error (4xx) response. -/
def isClientError : PanicOr HandlerOutcome → Bool
  | .ok (.clientError s _) => decide (400 ≤ s ∧ s < 500)
  | _ => false

/-- Translation of `routes.query` (serving `/api/v1/query` and `/api/v1/query_range`),
parametrised by the external PromQL parser (`parser.ParseExpr`), the AST
enforcer (`Enforcer.EnforceNode`, modelled as returning the rewritten
expression) and the AST printer (`Expr.String()`).  On a parse or
enforcement error the Go code executes a bare `return`. -/
def query {Expr : Type} (label : String) (ctxVal : Option (List String))
    (parseExpr : String → Except String Expr)
    (enforceNode : Matcher → Expr → Except String Expr)
    (exprString : Expr → String) (req : Request) : PanicOr HandlerOutcome :=
  match parseExpr (Values.get req.form "query") with
  | .error _ => .ok .silentReturn
  | .ok expr =>
    match createLabelMatcher ctxVal label with
    | .panicked msg => .panicked msg
    | .ok matcher =>
      match enforceNode matcher expr with
      | .error _ => .ok .silentReturn
      | .ok expr2 =>
        let q := Values.set req.query "query" (exprString expr2)
        .ok (.forwarded { req with query := q })

/-- The loop body of `routes.series` over the `match[]` values,
accumulating the rewritten query parameters. -/
def seriesLoop {Expr : Type} (label : String) (ctxVal : Option (List String))
    (parseExpr : String → Except String Expr)
    (enforceNode : Matcher → Expr → Except String Expr)
    (exprString : Expr → String) (req : Request) (q : Values) :
    List String → PanicOr HandlerOutcome
  | [] => .ok (.forwarded { req with query := q })
  | s :: rest =>
    match parseExpr s with
    | .error _ => .ok .silentReturn
    | .ok expr =>
      match createLabelMatcher ctxVal label with
      | .panicked msg => .panicked msg
      | .ok matcher =>
        match enforceNode matcher expr with
        | .error _ => .ok .silentReturn
        | .ok expr2 =>
          seriesLoop label ctxVal parseExpr enforceNode exprString req
            (Values.add q "match[]" (exprString expr2)) rest

/-- Translation of `routes.series`: take the client's `match[]` values from the form,
delete `match[]` from the URL query, re-add each value after
enforcement, and forward; when `match[]` is absent (`nil`), the loop is
skipped and the request is forwarded as is. -/
def series {Expr : Type} (label : String) (ctxVal : Option (List String))
    (parseExpr : String → Except String Expr)
    (enforceNode : Matcher → Expr → Except String Expr)
    (exprString : Expr → String) (req : Request) : PanicOr HandlerOutcome :=
  let matchList := Values.findKey req.form "match[]"
  let q := Values.del req.query "match[]"
  match matchList with
  | none => .ok (.forwarded { req with query := q })
  | some ms =>
    seriesLoop label ctxVal parseExpr enforceNode exprString req q ms

/-- Translation of `routes.federate`: build the tenant matcher and overwrite the
`match[]` parameter with the single selector `{matcher}`. -/
def federate (r : Routes) (ctxVal : Option (List String)) (req : Request) :
    PanicOr HandlerOutcome :=
  match createLabelMatcher ctxVal r.label with
  | .panicked msg => .panicked msg
  | .ok matcher =>
    let q := Values.set req.query "match[]"
      ("\x7b" ++ matcherString matcher ++ "\x7d")
    .ok (.forwarded { req with query := q })

/-- Model of the external RE2 regular-expression engine's acceptance for
a pattern of the shape `^(?:body)$` in which `body` is a `|`-alternation
of literals free of regex metacharacters: such a pattern accepts exactly
the alternants of `body`. -/
def alternationAccepts (body s : String) : Bool :=
  (goSplitChar '|' body).contains s

/-! ### Helper lemmas about the `url.Values` operations and splitting -/

theorem Values.getAll_del (q : Values) (k : String) :
    Values.getAll (Values.del q k) k = [] := by
  induction q with
  | nil => rfl
  | cons p rest ih =>
    by_cases h : p.1 = k <;>
      simp [Values.getAll, Values.del, List.filter, h] at ih ⊢

theorem Values.getAll_append (q1 q2 : Values) (k : String) :
    Values.getAll (q1 ++ q2) k = Values.getAll q1 k ++ Values.getAll q2 k := by
  simp [Values.getAll, List.filter_append]

theorem Values.getAll_set (q : Values) (k v : String) :
    Values.getAll (Values.set q k v) k = [v] := by
  rw [Values.set, Values.getAll_append, Values.getAll_del]
  simp [Values.getAll]

theorem splitOnChar_ne_nil (c : Char) (l : List Char) :
    splitOnChar c l ≠ [] := by
  cases l with
  | nil => simp [splitOnChar]
  | cons x xs =>
    simp only [splitOnChar]
    split
    · simp
    · split <;> simp

theorem joinChar_cons_cons (c x : Char) (h : List Char) (t : List (List Char)) :
    joinChar c ((x :: h) :: t) = x :: joinChar c (h :: t) := by
  cases t <;> simp [joinChar]

theorem joinChar_splitOnChar (c : Char) (l : List Char) :
    joinChar c (splitOnChar c l) = l := by
  induction l with
  | nil => rfl
  | cons x xs ih =>
    simp only [splitOnChar]
    by_cases h : x = c
    · rw [if_pos h]
      obtain ⟨h1, t, heq⟩ := List.exists_cons_of_ne_nil (splitOnChar_ne_nil c xs)
      rw [heq] at ih ⊢
      simp [joinChar, ih, h]
    · rw [if_neg h]
      cases heq : splitOnChar c xs with
      | nil => exact absurd heq (splitOnChar_ne_nil c xs)
      | cons h1 t =>
        rw [heq] at ih
        rw [joinChar_cons_cons, ih]

theorem splitOnChar_length (c : Char) (l : List Char) :
    (splitOnChar c l).length = l.count c + 1 := by
  induction l with
  | nil => simp [splitOnChar]
  | cons x xs ih =>
    simp only [splitOnChar]
    by_cases h : x = c
    · simp [h, List.count_cons, ih]
    · cases heq : splitOnChar c xs with
      | nil => exact absurd heq (splitOnChar_ne_nil c xs)
      | cons h1 t =>
        rw [heq] at ih
        simp [h, List.count_cons, ← ih]

theorem goSplitChar_ne_nil (c : Char) (s : String) :
    goSplitChar c s ≠ [] := by
  simp [goSplitChar, splitOnChar_ne_nil]

theorem createLabelMatcher_ok_of_ne_nil (vals : List String) (label : String)
    (h : vals ≠ []) :
    ∃ m, createLabelMatcher (some vals) label = .ok m := by
  have h0 : ¬ vals.length = 0 := fun hc => h (List.length_eq_zero.mp hc)
  by_cases h1 : vals.length = 1
  · exact ⟨{ name := label, mtype := .matchEqual, value := vals.headD "" },
      by simp [createLabelMatcher, mustLabelValue, h0, h1]⟩
  · have h2 : 1 < vals.length := by omega
    exact ⟨{ name := label, mtype := .matchRegexp,
             value := "^(?:" ++ String.intercalate "|" vals ++ ")$" },
      by simp [createLabelMatcher, mustLabelValue, h0, h1, h2]⟩

theorem enforceMethods_not_mem (methods : List String) (req : Request)
    (hm : req.method ∉ methods) :
    enforceMethods methods req = .response 404 := by
  induction methods with
  | nil => rfl
  | cons m rest ih =>
    simp only [List.mem_cons, not_or] at hm
    have hne : ¬ m = req.method := fun hc => hm.1 hc.symm
    simp [enforceMethods, hne, ih hm.2]

/-! ### Concrete requests and collaborators used to instantiate theorems -/

/-- A gateway configured to read the label "tenant" from a query
parameter. -/
def paramRoutes : Routes := { label := "tenant", labelLocation := "param" }

/-- A gateway configured to read the label "tenant" from a header. -/
def headerRoutes : Routes := { label := "tenant", labelLocation := "header" }

/-- A request carrying the tenant value in a header. -/
def headerReq : Request :=
  { method := "GET", path := "/federate",
    header := [("tenant", ["a"])], query := [], form := [] }

/-- A request carrying two comma-separated tenant values in the query
string, plus an unrelated parameter. -/
def paramReq : Request :=
  { method := "GET", path := "/api/v1/query", header := [],
    query := [("tenant", ["a,b"]), ("x", ["1"])], form := [] }

/-- The request `paramReq` after `ServeHTTP` deleted the tenant
parameter. -/
def paramReqOut : Request :=
  { method := "GET", path := "/api/v1/query", header := [],
    query := [("x", ["1"])], form := [] }

/-- A request with no tenant value anywhere. -/
def emptyReq : Request :=
  { method := "GET", path := "/api/v1/query",
    header := [], query := [], form := [] }

/-- A query request whose `query` parameter is an unbalanced brace,
which the PromQL parser rejects. -/
def badQueryReq : Request :=
  { method := "GET", path := "/api/v1/query", header := [],
    query := [("query", ["\x7b"])], form := [("query", ["\x7b"])] }

/-- A request using a method no route allows. -/
def putReq : Request :=
  { method := "PUT", path := "/federate",
    header := [], query := [], form := [] }

/-- A series request without any `match[]` parameter. -/
def seriesReq : Request :=
  { method := "GET", path := "/api/v1/series", header := [],
    query := [("foo", ["1"])], form := [("foo", ["1"])] }

/-- A federate request on which the client supplied its own `match[]`
selector. -/
def federateReq : Request :=
  { method := "GET", path := "/federate", header := [],
    query := [("match[]", ["up"])], form := [] }

/-- An instance of the external PromQL parser outcome on an unparseable
expression: `parser.ParseExpr` fails on every input it is given. -/
def failingParse : String → Except String Unit :=
  fun _ => Except.error "1:2: parse error: unexpected end of input"

/-- An instance of the external enforcer that accepts every node. -/
def okEnforce : Matcher → Unit → Except String Unit :=
  fun _ e => Except.ok e

/-- A printer for the trivial expression type. -/
def unitString : Unit → String := fun _ => ""

/-! ### Claim theorems -/

/-- C3: whenever the tenant value read from the configured location is
empty or absent, `ServeHTTP` answers HTTP 400 with a message naming the
required parameter (the configured label, `%q`-quoted), and never
dispatches the request to any handler, so nothing is forwarded
upstream. -/
theorem serveHTTP_missing_tenant_400 (r : Routes) (req : Request)
    (h : readLabelValue r req = "") :
    serveHTTP r req =
      .response 400
        ("Bad request. The " ++ goQuote r.label ++
          " query parameter must be provided.") ∧
    ∀ req2 vals, serveHTTP r req ≠ .dispatched req2 vals := by
  constructor
  · simp [serveHTTP, h]
  · intro req2 vals hc
    rw [serveHTTP] at hc
    simp [h] at hc

/-- Witness for C3 at a concrete request with no tenant value. -/
theorem serveHTTP_missing_tenant_400_witness :
    serveHTTP headerRoutes emptyReq =
      .response 400
        ("Bad request. The " ++ goQuote "tenant" ++
          " query parameter must be provided.") :=
  (serveHTTP_missing_tenant_400 headerRoutes emptyReq rfl).1

/-- C4: on a non-empty tenant value list, `createLabelMatcher` yields an
equality matcher on the single value when there is exactly one, and a
regexp matcher with the anchored alternation of all values in order
when there are several. -/
theorem createLabelMatcher_spec (vals : List String) (label v : String) :
    (vals = [v] →
      createLabelMatcher (some vals) label =
        .ok { name := label, mtype := .matchEqual, value := v }) ∧
    (1 < vals.length →
      createLabelMatcher (some vals) label =
        .ok { name := label, mtype := .matchRegexp,
              value := "^(?:" ++ String.intercalate "|" vals ++ ")$" }) := by
  constructor
  · rintro rfl
    simp [createLabelMatcher, mustLabelValue]
  · intro h
    have h0 : ¬ vals.length = 0 := by omega
    have h1 : ¬ vals.length = 1 := by omega
    simp [createLabelMatcher, mustLabelValue, h0, h1, h]

/-- Witness for C4 at the single value list `["a"]` and at the pair
`["a", "b"]`. -/
theorem createLabelMatcher_spec_witness :
    createLabelMatcher (some ["a"]) "tenant" =
      .ok { name := "tenant", mtype := .matchEqual, value := "a" } ∧
    createLabelMatcher (some ["a", "b"]) "tenant" =
      .ok { name := "tenant", mtype := .matchRegexp, value := "^(?:a|b)$" } :=
  ⟨(createLabelMatcher_spec ["a"] "tenant" "a").1 rfl,
   (createLabelMatcher_spec ["a", "b"] "tenant" "a").2 (by decide)⟩

/-- C5: for more than one tenant value the regexp pattern is exactly the
concatenation of "^(?:", the values joined verbatim by "|", and ")$" —
no escaping of regex metacharacters occurs anywhere; consequently, for
the value list ["a|b", "c"] the joined body "a|b|c" makes the pattern
accept the label value "b", which is outside the literal tenant value
set. -/
theorem createLabelMatcher_regex_unescaped (vals : List String)
    (label : String) (h : 1 < vals.length) :
    createLabelMatcher (some vals) label =
      .ok { name := label, mtype := .matchRegexp,
            value := "^(?:" ++ String.intercalate "|" vals ++ ")$" } ∧
    alternationAccepts (String.intercalate "|" ["a|b", "c"]) "b" = true ∧
    (["a|b", "c"] : List String).contains "b" = false := by
  refine ⟨?_, by decide, by decide⟩
  have h0 : ¬ vals.length = 0 := by omega
  have h1 : ¬ vals.length = 1 := by omega
  simp [createLabelMatcher, mustLabelValue, h0, h1, h]

/-- Witness for C5 at the value list `["x", "y"]`. -/
theorem createLabelMatcher_regex_unescaped_witness :
    createLabelMatcher (some ["x", "y"]) "tenant" =
      .ok { name := "tenant", mtype := .matchRegexp, value := "^(?:x|y)$" } :=
  (createLabelMatcher_regex_unescaped ["x", "y"] "tenant" (by decide)).1

/-- C10: for every registered route, a request whose method is outside
the route's allowed set gets status 404 from `enforceMethods` (not 405),
and the wrapped handler is not invoked. -/
theorem unknown_method_404 (p : String) (methods : List String)
    (req : Request) (hroute : (p, methods) ∈ routesTable)
    (hm : req.method ∉ methods) :
    enforceMethods methods req = .response 404 ∧
    enforceMethods methods req ≠ .invokeHandler := by
  have h := enforceMethods_not_mem methods req hm
  exact ⟨h, by simp [h]⟩

/-- Witness for C10: a PUT to /federate (GET-only) is answered 404. -/
theorem unknown_method_404_witness :
    enforceMethods ["GET"] putReq = .response 404 ∧
    enforceMethods ["GET"] putReq ≠ .invokeHandler :=
  unknown_method_404 "/federate" ["GET"] putReq (by decide) (by decide)

/-- C1 counterexample: a `/api/v1/query` request whose `query` parameter
fails to parse is not answered with any 4xx error status — the handler
returns silently, so the client gets an implicit empty 200 response
(nothing is forwarded upstream, but no error status is sent either,
contradicting the claim that a 4xx is returned). -/
theorem query_parse_failure_not_4xx :
    failingParse (Values.get badQueryReq.form "query") =
      Except.error "1:2: parse error: unexpected end of input" ∧
    query "tenant" (some ["a"]) failingParse okEnforce unitString
      badQueryReq = .ok .silentReturn ∧
    isClientError
      (query "tenant" (some ["a"]) failingParse okEnforce unitString
        badQueryReq) = false :=
  ⟨rfl, rfl, rfl⟩

/-- C1 (amended): for every request to the query endpoints on which the
PromQL parse fails, or on which matcher enforcement fails, the handler
forwards nothing upstream but writes no error response either — it
performs a bare return, so the client receives an implicit empty 200,
not a 4xx. -/
theorem query_failure_silent_return {Expr : Type} (label : String)
    (ctxVal : Option (List String))
    (parseExpr : String → Except String Expr)
    (enforceNode : Matcher → Expr → Except String Expr)
    (exprString : Expr → String) (req : Request) :
    (∀ e, parseExpr (Values.get req.form "query") = Except.error e →
      query label ctxVal parseExpr enforceNode exprString req =
        .ok .silentReturn) ∧
    (∀ x m e, parseExpr (Values.get req.form "query") = Except.ok x →
      createLabelMatcher ctxVal label = .ok m →
      enforceNode m x = Except.error e →
      query label ctxVal parseExpr enforceNode exprString req =
        .ok .silentReturn) := by
  constructor
  · intro e he
    simp [query, he]
  · intro x m e hx hm he
    simp [query, hx, hm, he]

/-- Witness for the amended C1 at a concrete unparseable request. -/
theorem query_failure_silent_return_witness :
    query "tenant" (some ["a"]) failingParse okEnforce unitString
      badQueryReq = .ok .silentReturn :=
  (query_failure_silent_return "tenant" (some ["a"]) failingParse okEnforce
    unitString badQueryReq).1 "1:2: parse error: unexpected end of input" rfl

/-- C2 counterexample: with the tenant carried in a header, `ServeHTTP`
dispatches the request with its headers untouched — the tenant header is
still present on the forwarded request, contradicting the claim that the
header is stripped before forwarding. -/
theorem serveHTTP_header_not_stripped :
    serveHTTP headerRoutes headerReq = .dispatched headerReq ["a"] ∧
    Values.getAll headerReq.header "tenant" = ["a"] := by
  constructor
  · rfl
  · rfl

/-- C2 (amended): whatever the configured location, `ServeHTTP` always
deletes the tenant label from the outgoing query string before
dispatching, but never strips the header: the forwarded request carries
exactly the inbound headers. -/
theorem serveHTTP_strips_query_param_only (r : Routes) (req req2 : Request)
    (vals : List String) (h : serveHTTP r req = .dispatched req2 vals) :
    Values.getAll req2.query r.label = [] ∧ req2.header = req.header := by
  rw [serveHTTP] at h
  by_cases hl : readLabelValue r req = ""
  · simp [hl] at h
  · simp only [hl, if_neg, if_false] at h
    cases h
    exact ⟨Values.getAll_del req.query r.label, rfl⟩

/-- Witness for the amended C2 at a concrete dispatched request. -/
theorem serveHTTP_strips_query_param_only_witness :
    Values.getAll paramReqOut.query "tenant" = [] ∧
    paramReqOut.header = paramReq.header :=
  serveHTTP_strips_query_param_only paramRoutes paramReq paramReqOut
    ["a", "b"] (by decide)

/-- C6: on a GET /federate request with a valid (non-empty) tenant
context, `federate` sets the forwarded `match[]` parameter to exactly
one value — the selector built from the tenant matcher alone — and any
client-supplied `match[]` values are overwritten. -/
theorem federate_overwrites_match (r : Routes) (req : Request)
    (vals : List String) (hm : req.method = "GET")
    (hp : req.path = "/federate") (h : vals ≠ []) :
    ∃ m q, createLabelMatcher (some vals) r.label = .ok m ∧
      q = Values.set req.query "match[]"
            ("\x7b" ++ matcherString m ++ "\x7d") ∧
      federate r (some vals) req = .ok (.forwarded { req with query := q }) ∧
      Values.getAll q "match[]" = ["\x7b" ++ matcherString m ++ "\x7d"] := by
  obtain ⟨m, hcm⟩ := createLabelMatcher_ok_of_ne_nil vals r.label h
  refine ⟨m, _, hcm, rfl, ?_, Values.getAll_set _ _ _⟩
  simp [federate, hcm]

/-- Witness for C6 at a federate request whose client already supplied
its own `match[]` value. -/
theorem federate_overwrites_match_witness :
    ∃ m q, createLabelMatcher (some ["a"]) paramRoutes.label = .ok m ∧
      q = Values.set federateReq.query "match[]"
            ("\x7b" ++ matcherString m ++ "\x7d") ∧
      federate paramRoutes (some ["a"]) federateReq =
        .ok (.forwarded { federateReq with query := q }) ∧
      Values.getAll q "match[]" = ["\x7b" ++ matcherString m ++ "\x7d"] :=
  federate_overwrites_match paramRoutes federateReq ["a"] rfl rfl (by decide)

/-- C7: every request `ServeHTTP` dispatches carries a non-empty tenant
value list in its context, on which `mustLabelValue` succeeds and
`createLabelMatcher` cannot hit a panic branch; conversely a missing or
empty list makes both fail loudly with a panic. -/
theorem tenant_context_nonempty_no_panic :
    (∀ r req req2 vals, serveHTTP r req = .dispatched req2 vals →
      vals ≠ [] ∧ mustLabelValue (some vals) = .ok vals ∧
      ∀ label, (createLabelMatcher (some vals) label).isPanic = false) ∧
    (mustLabelValue none).isPanic = true ∧
    (mustLabelValue (some [])).isPanic = true ∧
    ∀ label, (createLabelMatcher none label).isPanic = true ∧
      (createLabelMatcher (some []) label).isPanic = true := by
  refine ⟨?_, rfl, rfl, fun label => ⟨rfl, rfl⟩⟩
  intro r req req2 vals h
  rw [serveHTTP] at h
  by_cases hl : readLabelValue r req = ""
  · simp [hl] at h
  · simp only [hl, if_neg, if_false] at h
    cases h
    have hne : goSplitChar ',' (readLabelValue r req) ≠ [] :=
      goSplitChar_ne_nil _ _
    refine ⟨hne, ?_, ?_⟩
    · have h0 : ¬ (goSplitChar ',' (readLabelValue r req)).length = 0 :=
        fun hc => hne (List.length_eq_zero.mp hc)
      simp [mustLabelValue, h0]
    · intro label
      obtain ⟨m, hcm⟩ := createLabelMatcher_ok_of_ne_nil _ label hne
      simp [hcm, PanicOr.isPanic]

/-- Witness for C7 at a concrete dispatched request with two tenant
values. -/
theorem tenant_context_nonempty_no_panic_witness :
    mustLabelValue (some ["a", "b"]) = .ok ["a", "b"] ∧
    (createLabelMatcher (some ["a", "b"]) "tenant").isPanic = false :=
  ⟨(tenant_context_nonempty_no_panic.1 paramRoutes paramReq paramReqOut
      ["a", "b"] (by decide)).2.1,
   (tenant_context_nonempty_no_panic.1 paramRoutes paramReq paramReqOut
      ["a", "b"] (by decide)).2.2 "tenant"⟩

/-- C8: splitting a non-empty raw tenant value on commas preserves empty
segments: joining the segments back with commas reconstructs the raw
value exactly, the number of segments is the comma count plus one, the
example "a,,b" yields ["a", "", "b"], and the list `ServeHTTP` attaches
to the context is exactly this split of the raw value. -/
theorem split_preserves_empty_segments (s : String) (h : s ≠ "") :
    joinChar ',' (splitOnChar ',' s.data) = s.data ∧
    (goSplitChar ',' s).length = s.data.count ',' + 1 ∧
    goSplitChar ',' "a,,b" = ["a", "", "b"] ∧
    ∀ r req req2 vals, serveHTTP r req = .dispatched req2 vals →
      vals = goSplitChar ',' (readLabelValue r req) := by
  refine ⟨joinChar_splitOnChar _ _, ?_, by decide, ?_⟩
  · simp [goSplitChar, splitOnChar_length]
  · intro r req req2 vals hd
    rw [serveHTTP] at hd
    by_cases hl : readLabelValue r req = ""
    · simp [hl] at hd
    · simp only [hl, if_neg, if_false] at hd
      cases hd
      rfl

/-- Witness for C8 at the raw value "a,,b". -/
theorem split_preserves_empty_segments_witness :
    joinChar ',' (splitOnChar ',' ("a,,b" : String).data) =
      ("a,,b" : String).data ∧
    goSplitChar ',' "a,,b" = ["a", "", "b"] :=
  ⟨(split_preserves_empty_segments "a,,b" (by decide)).1,
   (split_preserves_empty_segments "a,,b" (by decide)).2.2.1⟩

/-- C9: a series request with a valid tenant context and no `match[]`
parameter in its form is still forwarded upstream (only the `match[]`
key is deleted from the outgoing query, a no-op here), unlike the query
endpoint, which never forwards when its `query` parameter fails to
parse. -/
theorem series_no_match_forwarded {Expr : Type} (label : String)
    (vals : List String) (parseExpr : String → Except String Expr)
    (enforceNode : Matcher → Expr → Except String Expr)
    (exprString : Expr → String) (req : Request) (hvals : vals ≠ [])
    (hmatch : Values.findKey req.form "match[]" = none) :
    series label (some vals) parseExpr enforceNode exprString req =
      .ok (.forwarded { req with query := Values.del req.query "match[]" }) ∧
    ∀ e req2, parseExpr (Values.get req.form "query") = Except.error e →
      query label (some vals) parseExpr enforceNode exprString req ≠
        .ok (.forwarded req2) := by
  constructor
  · simp [series, hmatch]
  · intro e req2 he hc
    rw [query] at hc
    simp [he] at hc

/-- Witness for C9 at a concrete series request without `match[]`. -/
theorem series_no_match_forwarded_witness :
    series "tenant" (some ["a"]) failingParse okEnforce unitString
      seriesReq =
      .ok (.forwarded
        { seriesReq with query := Values.del seriesReq.query "match[]" }) :=
  (series_no_match_forwarded "tenant" ["a"] failingParse okEnforce
    unitString seriesReq (by decide) rfl).1
